import Mathlib

/-!
Verification of the togglepad scheduling core against its specification.

The development is a shallow embedding of the Python sources:
  togglepad/guard.py   (ForegroundGuard)
  togglepad/worker.py  (MovementWorker, its control operations and loop body)
  togglepad/config.py  (the range parser)

Python floats are modelled as rationals, Python strings as lists of
characters, thread interleavings as explicit state passing, and calls that
can raise as Option-valued functions.  Every random draw consumed by the
code is passed in explicitly, so all definitions are executable.
-/

namespace Togglepad

/-- Strings from the Python source, modelled as lists of characters. -/
abbrev Str := List Char

/-- Python str.strip: drop whitespace from both ends. -/
def pyStrip (s : Str) : Str :=
  ((s.dropWhile Char.isWhitespace).reverse.dropWhile Char.isWhitespace).reverse

/-- Python str.lower on the ASCII identifiers used by this code. -/
def pyLower (s : Str) : Str := s.map Char.toLower

/-- Python `s or dflt` on strings: the empty string is falsy. -/
def pyOr (s dflt : Str) : Str := if s = [] then dflt else s

/-! ## togglepad/guard.py -/

/-- State of guard.py ForegroundGuard: configuration fields plus the
check cache (`_last_check`, `_cached_ok`).  `interval` is in seconds, as
in the source (`max(50, int(check_ms)) / 1000.0`). -/
structure ForegroundGuard where
  enabled : Bool
  mode : Str
  processes : List Str
  interval : ℚ
  last_check : ℚ
  cached_ok : Bool
deriving DecidableEq

/-- ForegroundGuard.__init__ from guard.py:
mode is `(mode or "blacklist").strip().lower()`, the process set keeps the
stripped, lower-cased non-blank entries, `interval = max(50, int(check_ms))
/ 1000.0`, the cache starts at `_last_check = 0.0`, `_cached_ok = True`. -/
def ForegroundGuard.init (enabled : Bool) (mode : Str) (processes : List Str)
    (check_ms : ℤ) : ForegroundGuard :=
  { enabled := enabled
    mode := pyLower (pyStrip (pyOr mode "blacklist".toList))
    processes := (processes.filter fun p => pyStrip p ≠ []).map fun p => pyLower (pyStrip p)
    interval := ((max 50 check_ms : ℤ) : ℚ) / 1000
    last_check := 0
    cached_ok := true }

/-- Result of one ForegroundGuard.allow_action call: the returned boolean,
the guard state afterwards, and whether the external foreground query
(`foreground_exe_basename`) was issued during the call. -/
structure AllowResult where
  ok : Bool
  state : ForegroundGuard
  queried : Bool
deriving DecidableEq

/-- ForegroundGuard.allow_action from guard.py.  `now` stands for
`time.time()` and `query` for the value `foreground_exe_basename()` would
return (`none` models a failed lookup).  The query is consumed only on the
non-cached path, where the source computes
`in_set = (name or "").lower() in self.processes` and
`ok = not in_set` in blacklist mode, `ok = in_set` otherwise. -/
def ForegroundGuard.allow_action (g : ForegroundGuard) (now : ℚ)
    (query : Option Str) : AllowResult :=
  if g.enabled = false ∨ g.processes = [] then ⟨true, g, false⟩
  else if now - g.last_check < g.interval then ⟨g.cached_ok, g, false⟩
  else
    let name := pyLower (query.getD [])
    let in_set := decide (name ∈ g.processes)
    let ok := if g.mode = "blacklist".toList then !in_set else in_set
    ⟨ok, { g with last_check := now, cached_ok := ok }, true⟩

/-- Run a sequence of allow_action calls (each a time paired with the
external query outcome available at that time) and collect the times of
the calls that actually issued an external query. -/
def queriedTimes (g : ForegroundGuard) : List (ℚ × Option Str) → List ℚ
  | [] => []
  | (t, q) :: rest =>
    let r := g.allow_action t q
    if r.queried then t :: queriedTimes r.state rest else queriedTimes r.state rest

/-! ## togglepad/config.py: the range parser -/

/-- Python str.replace(" ", ""). -/
def removeSpaces (s : Str) : Str := s.filter fun c => c ≠ ' '

/-- Python s.split(sep, 1): the part before the first separator and the
part after it (the whole string and [] when the separator is absent). -/
def splitFirst (sep : Char) : Str → Str × Str
  | [] => ([], [])
  | c :: cs =>
    if c = sep then ([], cs)
    else
      let p := splitFirst sep cs
      (c :: p.1, p.2)

/-- The clamping step of config.py: `lo = max(c0, min(c1, lo))`. -/
def pyClamp : Option (ℚ × ℚ) → ℚ → ℚ
  | none, v => v
  | some (c0, c1), v => max c0 (min c1 v)

/-- The range parser of togglepad/config.py.  `fl` stands for Python
float(): a parser of numeric literals, passed explicitly so the split,
swap and clamp logic — which is what this file reasons about — is exactly
the logic of the source; `fl` returning none models float() raising. -/
def parse_range (fl : Str → Option ℚ) (s : Str) (clamp : Option (ℚ × ℚ)) :
    Option (ℚ × ℚ) :=
  let raw := removeSpaces (pyStrip s)
  let ab :=
    if '-' ∈ raw then splitFirst '-' raw
    else if ',' ∈ raw then splitFirst ',' raw
    else (raw, raw)
  match fl ab.1, fl ab.2 with
  | some lo0, some hi0 =>
    let lo := if hi0 < lo0 then hi0 else lo0
    let hi := if hi0 < lo0 then lo0 else hi0
    some (pyClamp clamp lo, pyClamp clamp hi)
  | _, _ => none

/-! ## togglepad/worker.py: data model -/

/-- The fields of AppConfig (togglepad/config.py) consumed by
MovementWorker.apply_live_config.  The seed and hotkey fields of the
source dataclass are not read by any operation embedded here and are
omitted. -/
structure AppConfig where
  hold_seconds_range : ℚ × ℚ
  stick_magnitude_range : ℚ × ℚ
  a_interval_range : ℚ × ℚ
  a_hold_seconds_range : ℚ × ℚ
  rt_interval_range : ℚ × ℚ
  rt_intensity_range : ℚ × ℚ
  rt_hold_seconds_range : ℚ × ℚ
  loop_sleep_seconds : ℚ
  enable_a : Bool
  enable_rt : Bool
  only_actions_while_moving : Bool
  allow_diagonals : Bool
  direction_weights : ℚ × ℚ × ℚ × ℚ
  move_threshold : ℚ
  guard_enabled : Bool
  guard_mode : Str
  guard_processes : List Str
  guard_check_ms : ℤ
deriving DecidableEq

/-- The mutable state of a MovementWorker (worker.py): the live config
fields, the run/terminate flags, `_current_mag`, and the installed guard.
The backend, logger, lock and thread objects carry no state the embedded
operations read. -/
structure MovementWorker where
  hold_rng : ℚ × ℚ
  mag_rng : ℚ × ℚ
  a_int_rng : ℚ × ℚ
  a_hold_rng : ℚ × ℚ
  rt_int_rng : ℚ × ℚ
  rt_inten_rng : ℚ × ℚ
  rt_hold_rng : ℚ × ℚ
  loop_tick : ℚ
  enable_a : Bool
  enable_rt : Bool
  allow_diagonals : Bool
  dir_w : ℚ × ℚ × ℚ × ℚ
  only_actions_while_moving : Bool
  move_threshold : ℚ
  running : Bool
  terminate : Bool
  current_mag : ℚ
  guard : ForegroundGuard
deriving DecidableEq

/-- MovementWorker.apply_live_config: overwrite every live-config field
from the AppConfig and rebuild the guard; the run/terminate flags and
`_current_mag` are untouched. -/
def MovementWorker.apply_live_config (w : MovementWorker) (cfg : AppConfig) :
    MovementWorker :=
  { w with
    hold_rng := cfg.hold_seconds_range
    mag_rng := cfg.stick_magnitude_range
    a_int_rng := cfg.a_interval_range
    a_hold_rng := cfg.a_hold_seconds_range
    rt_int_rng := cfg.rt_interval_range
    rt_inten_rng := cfg.rt_intensity_range
    rt_hold_rng := cfg.rt_hold_seconds_range
    loop_tick := cfg.loop_sleep_seconds
    enable_a := cfg.enable_a
    enable_rt := cfg.enable_rt
    allow_diagonals := cfg.allow_diagonals
    dir_w := cfg.direction_weights
    only_actions_while_moving := cfg.only_actions_while_moving
    move_threshold := cfg.move_threshold
    guard := ForegroundGuard.init cfg.guard_enabled cfg.guard_mode
      cfg.guard_processes cfg.guard_check_ms }

/-- MovementWorker.toggle: `self._running = not self._running`,
unconditionally (the source has no check of `_terminate`). -/
def MovementWorker.toggle (w : MovementWorker) : MovementWorker :=
  { w with running := !w.running }

/-- MovementWorker.stop: `self._terminate = True; self._running = False`. -/
def MovementWorker.stop (w : MovementWorker) : MovementWorker :=
  { w with terminate := true, running := false }

/-- The three ControlSurface operations that mutate worker state from
outside the loop. -/
inductive ControlOp where
  | toggleOp : ControlOp
  | stopOp : ControlOp
  | reloadOp : AppConfig → ControlOp
deriving DecidableEq

/-- Apply one ControlSurface operation. -/
def applyOp (w : MovementWorker) : ControlOp → MovementWorker
  | .toggleOp => w.toggle
  | .stopOp => w.stop
  | .reloadOp cfg => w.apply_live_config cfg

/-- Apply a sequence of ControlSurface operations. -/
def applyOps (w : MovementWorker) : List ControlOp → MovementWorker
  | [] => w
  | op :: ops => applyOps (applyOp w op) ops

/-! ## togglepad/worker.py: direction sampling -/

/-- The prepared cardinal directions (up, right, down, left). -/
def cardinals : List (ℚ × ℚ) := [(0, 1), (1, 0), (0, -1), (-1, 0)]

/-- The prepared diagonal directions, with the 0.707 components of the
source. -/
def diagonals : List (ℚ × ℚ) :=
  [(707/1000, 707/1000), (707/1000, -(707/1000)),
   (-(707/1000), -(707/1000)), (-(707/1000), 707/1000)]

/-- Running totals of a weight list, as random.choices builds its
cum_weights via accumulate. -/
def cumsum : List ℚ → List ℚ
  | [] => []
  | x :: xs => x :: (cumsum xs).map (x + ·)

/-- Index of the first entry strictly greater than x; on the sorted
cumulative lists used here this is bisect.bisect (bisect_right), as called
by random.choices. -/
def bisect_right (l : List ℚ) (x : ℚ) : ℕ :=
  match l with
  | [] => 0
  | c :: cs => if x < c then 0 else bisect_right cs x + 1

/-- random.choices(range(len(ws)), weights=ws, k=1)[0] with the draw of
random.random() passed in as r: none models the ValueError raised when the
total of the weights is not greater than zero; otherwise the chosen index
is bisect(cum_weights, r * total, 0, len - 1), the bisect result clamped
to the last index. -/
def choicesIdx (ws : List ℚ) (r : ℚ) : Option ℕ :=
  let total := ws.sum
  if total ≤ 0 then none
  else some (min (bisect_right (cumsum ws) (r * total)) (ws.length - 1))

/-- random.uniform(lo, hi) with the random.random() draw passed in as r:
lo + (hi - lo) * r. -/
def uniform (lo hi r : ℚ) : ℚ := lo + (hi - lo) * r

/-- The candidate list built by MovementWorker._pick_direction: the
cardinals, extended with the diagonals when allow_diagonals is set. -/
def dirsOf (w : MovementWorker) : List (ℚ × ℚ) :=
  if w.allow_diagonals then cardinals ++ diagonals else cardinals

/-- The weight list built by MovementWorker._pick_direction: the four
cardinal weights; when allow_diagonals is set, each diagonal gets
`sum(w) / 4.0 if any(w) else 1.0`. -/
def weightsOf (w : MovementWorker) : List ℚ :=
  let ws := [w.dir_w.1, w.dir_w.2.1, w.dir_w.2.2.1, w.dir_w.2.2.2]
  if w.allow_diagonals then
    let avg := if ws.any (fun x => x ≠ 0) then ws.sum / 4 else 1
    ws ++ [avg, avg, avg, avg]
  else ws

/-- MovementWorker._pick_direction with the two random draws passed in
(rChoice for random.choices, rMag for random.uniform on mag_rng): returns
(base_x * mag, base_y * mag, mag), or none when random.choices raises. -/
def pick_direction (w : MovementWorker) (rChoice rMag : ℚ) :
    Option (ℚ × ℚ × ℚ) :=
  (choicesIdx (weightsOf w) rChoice).map fun idx =>
    let base := (dirsOf w).getD idx (0, 0)
    let mag := uniform w.mag_rng.1 w.mag_rng.2 rMag
    (base.1 * mag, base.2 * mag, mag)

/-! ## togglepad/worker.py: one iteration of the _loop body -/

/-- The loop-local schedule state of MovementWorker._loop: hold_until,
next_a and next_rt.  The source seeds next_a and next_rt with
`now + float("inf")`; the infinite timestamp is modelled as none. -/
structure LoopLocals where
  hold_until : ℚ
  next_a : Option ℚ
  next_rt : Option ℚ
deriving DecidableEq

/-- The loop-local state right before the first iteration: hold_until =
now, next_a = next_rt = infinity. -/
def LoopLocals.init (now : ℚ) : LoopLocals := ⟨now, none, none⟩

/-- Python `now >= next` on a possibly-infinite due time: an infinite due
time is never reached. -/
def isDue (next : Option ℚ) (now : ℚ) : Bool :=
  match next with
  | none => false
  | some t => decide (t ≤ now)

/-- The random draws one loop iteration may consume, one field per
random.uniform / random.choices call site in the source, in call order. -/
structure Rand where
  choice : ℚ
  mag : ℚ
  hold : ℚ
  a_int_arm : ℚ
  rt_int_arm : ℚ
  a_hold : ℚ
  a_int_fire : ℚ
  rt_inten : ℚ
  rt_hold : ℚ
  rt_int_fire : ℚ

/-- One iteration of the while-loop body of MovementWorker._loop, with
the interleaving points collapsed (no concurrent mutation during the
iteration): `now` stands for time.time(), `gateAllows` for the value of
self.guard.allow_action().  Branches in source order: the locked
terminate check (the loop returns, modelled as an unchanged state), the
gate-deny branch (which zeroes _current_mag), the not-running branch
(which sleeps and changes nothing), then the stick-rotation channel —
arming next_a / next_rt only when they are still infinite — followed by
the moving_ok computation and the A and RT channels.  none models the
ValueError _pick_direction can raise. -/
def tick (w : MovementWorker) (L : LoopLocals) (now : ℚ) (gateAllows : Bool)
    (r : Rand) : Option (MovementWorker × LoopLocals) :=
  if w.terminate then some (w, L)
  else if gateAllows = false then some ({ w with current_mag := 0 }, L)
  else if w.running = false then some (w, L)
  else
    let rot : Option (MovementWorker × LoopLocals) :=
      if L.hold_until ≤ now then
        match pick_direction w r.choice r.mag with
        | none => none
        | some (_, _, mag) =>
          some ({ w with current_mag := mag },
            { hold_until := now + uniform w.hold_rng.1 w.hold_rng.2 r.hold
              next_a := if L.next_a = none then
                  some (now + uniform w.a_int_rng.1 w.a_int_rng.2 r.a_int_arm)
                else L.next_a
              next_rt := if L.next_rt = none then
                  some (now + uniform w.rt_int_rng.1 w.rt_int_rng.2 r.rt_int_arm)
                else L.next_rt })
      else some (w, L)
    match rot with
    | none => none
    | some (w1, L1) =>
      let moving_ok := if w1.only_actions_while_moving then
          decide (w1.move_threshold ≤ w1.current_mag) else true
      let L2 := if w1.enable_a && moving_ok && isDue L1.next_a now then
          { L1 with next_a := some (now + uniform w1.a_int_rng.1 w1.a_int_rng.2 r.a_int_fire) }
        else L1
      let L3 := if w1.enable_rt && moving_ok && isDue L2.next_rt now then
          { L2 with next_rt := some (now + uniform w1.rt_int_rng.1 w1.rt_int_rng.2 r.rt_int_fire) }
        else L2
      some (w1, L3)

/-! ## The tick as two read phases (for the atomic-replacement claim) -/

/-- The fields the loop copies while holding self._lock (the with-block at
the top of the loop body). -/
structure LockedSnapshot where
  terminate : Bool
  running : Bool
  loop_tick : ℚ
  enable_a : Bool
  enable_rt : Bool
  only_while_moving : Bool
  move_thresh : ℚ
deriving DecidableEq

/-- The locked with-block of the loop body: local_running, tick, enable_a,
enable_rt, only_while_moving, move_thresh (plus the terminate test). -/
def lockedSnapshot (w : MovementWorker) : LockedSnapshot :=
  ⟨w.terminate, w.running, w.loop_tick, w.enable_a, w.enable_rt,
   w.only_actions_while_moving, w.move_threshold⟩

/-- The mutable attributes the same iteration reads after the with-block
has released the lock: the guard (self.guard.allow_action()), the ranges
and weights consumed by _pick_direction and the random.uniform calls, and
the allow_diagonals flag. -/
structure UnlockedReads where
  guard : ForegroundGuard
  hold_rng : ℚ × ℚ
  mag_rng : ℚ × ℚ
  a_int_rng : ℚ × ℚ
  a_hold_rng : ℚ × ℚ
  rt_int_rng : ℚ × ℚ
  rt_inten_rng : ℚ × ℚ
  rt_hold_rng : ℚ × ℚ
  dir_w : ℚ × ℚ × ℚ × ℚ
  allow_diagonals : Bool
deriving DecidableEq

/-- The unlocked reads of one iteration, taken from a worker state. -/
def unlockedReads (w : MovementWorker) : UnlockedReads :=
  ⟨w.guard, w.hold_rng, w.mag_rng, w.a_int_rng, w.a_hold_rng, w.rt_int_rng,
   w.rt_inten_rng, w.rt_hold_rng, w.dir_w, w.allow_diagonals⟩

/-- Everything one iteration observes of the shared worker state:
`wSnap` is the state while the locked with-block runs, `wLate` the state
when the post-lock reads happen.  A concurrent apply_live_config that
lands between the two makes wLate differ from wSnap. -/
structure TickObservation where
  snap : LockedSnapshot
  late : UnlockedReads
deriving DecidableEq

/-- The observation of an iteration whose locked snapshot reads from
wSnap and whose unlocked reads happen against wLate. -/
def tickObservation (wSnap wLate : MovementWorker) : TickObservation :=
  ⟨lockedSnapshot wSnap, unlockedReads wLate⟩

/-! ## Concrete instances used by witnesses and counterexamples -/

/-- A guard as built by worker.py MovementWorker.__init__ would with a
blacklist entry installed: enabled, blacklist mode, {"game.exe"},
check_ms = 150. -/
def guard0 : ForegroundGuard :=
  ForegroundGuard.init true "blacklist".toList ["game.exe".toList] 150

/-- The same guard in whitelist mode. -/
def guardW : ForegroundGuard :=
  ForegroundGuard.init true "whitelist".toList ["game.exe".toList] 150

/-- A concrete worker state: stopped, not terminating, degenerate ranges
chosen so that every random draw is forced. -/
def w0 : MovementWorker :=
  { hold_rng := (0, 0)
    mag_rng := (1, 1)
    a_int_rng := (50, 50)
    a_hold_rng := (0, 0)
    rt_int_rng := (50, 50)
    rt_inten_rng := (1, 1)
    rt_hold_rng := (0, 0)
    loop_tick := 1/100
    enable_a := true
    enable_rt := true
    allow_diagonals := false
    dir_w := (1, 1, 1, 1)
    only_actions_while_moving := false
    move_threshold := 1/10
    running := false
    terminate := false
    current_mag := 0
    guard := guard0 }

/-- A fixed tuple of random draws (every uniform draw takes its low
endpoint). -/
def r0 : Rand := ⟨0, 0, 0, 0, 0, 0, 0, 0, 0, 0⟩

/-! ## C1: the run-state transition structure of toggle and stop -/

/-- C1 counterexample: toggle() is not a no-op while Terminating.  After
stop() has set the terminate flag and cleared the run flag, a further
toggle() sets the run flag back to true, so the run flag does not stay
unchanged as the claim states. -/
theorem c1_toggle_not_noop_after_stop :
    w0.stop.terminate = true ∧ w0.stop.running = false ∧
    w0.stop.toggle.running = true := ⟨rfl, rfl, rfl⟩

/-- C1 (amended): toggle() always flips the run flag — in every state,
including after stop() has set Terminating — and never touches the
terminate flag; stop() forces the terminate flag on and the run flag off
from any state; and the terminate flag, once set, is never cleared by any
sequence of ControlSurface operations (Terminating is absorbing at the
state level). -/
theorem c1_run_state_transitions (w : MovementWorker) :
    (w.toggle.running = !w.running ∧ w.toggle.terminate = w.terminate) ∧
    (w.stop.terminate = true ∧ w.stop.running = false) ∧
    (∀ ops : List ControlOp, w.terminate = true →
      (applyOps w ops).terminate = true) := by
  refine ⟨⟨rfl, rfl⟩, ⟨rfl, rfl⟩, ?_⟩
  intro ops
  induction ops generalizing w with
  | nil => intro h; simpa [applyOps] using h
  | cons op rest ih =>
    intro h
    have hop : (applyOp w op).terminate = true := by
      cases op <;>
        simp [applyOp, MovementWorker.toggle, MovementWorker.stop,
          MovementWorker.apply_live_config, h]
    simpa [applyOps] using ih (applyOp w op) hop

/-- C1 witness: a concrete run through the amended theorem — applied to a
stopped worker, a toggle-stop-toggle sequence leaves the terminate flag
set. -/
theorem c1_run_state_transitions_witness :
    (applyOps w0.stop
      [ControlOp.toggleOp, ControlOp.stopOp, ControlOp.toggleOp]).terminate
      = true :=
  (c1_run_state_transitions w0.stop).2.2
    [ControlOp.toggleOp, ControlOp.stopOp, ControlOp.toggleOp] rfl

/-! ## C4: when the loop resets the current magnitude -/

/-- A worker mid-run with a nonzero held magnitude whose schedule is
paused (run flag false). -/
def wPausedMag : MovementWorker := { w0 with current_mag := 1/2 }

/-- C4 counterexample: a tick taken in the paused branch does not reset
the stored magnitude.  With the gate allowing and the run flag false, a
worker holding magnitude 1/2 still holds 1/2 after the tick, not 0. -/
theorem c4_paused_tick_keeps_magnitude :
    wPausedMag.running = false ∧
    (tick wPausedMag (LoopLocals.init 0) 1 true r0).map
      (fun p => p.1.current_mag) = some (1/2) ∧
    (1/2 : ℚ) ≠ 0 := by
  refine ⟨rfl, ?_, by norm_num⟩
  simp [tick, wPausedMag, w0]

/-- C4 (amended): the scheduler loop resets the stored current magnitude
to 0 only in the gate-denied branch; the paused branch (gate allowing,
run flag false) leaves the worker state — including the current
magnitude — unchanged. -/
theorem c4_current_mag_reset (w : MovementWorker) (L : LoopLocals) (now : ℚ)
    (r : Rand) (hT : w.terminate = false) :
    tick w L now false r = some ({ w with current_mag := 0 }, L) ∧
    (w.running = false → tick w L now true r = some (w, L)) := by
  constructor
  · simp [tick, hT]
  · intro hR
    simp [tick, hT, hR]

/-- C4 witness: the amended theorem applied to the concrete paused
worker. -/
theorem c4_current_mag_reset_witness :
    tick wPausedMag (LoopLocals.init 0) 1 false r0 =
      some ({ wPausedMag with current_mag := 0 }, LoopLocals.init 0) ∧
    tick wPausedMag (LoopLocals.init 0) 1 true r0 =
      some (wPausedMag, LoopLocals.init 0) :=
  ⟨(c4_current_mag_reset wPausedMag (LoopLocals.init 0) 1 r0 rfl).1,
   (c4_current_mag_reset wPausedMag (LoopLocals.init 0) 1 r0 rfl).2 rfl⟩

/-! ## C10: single scalars parsed as degenerate ranges -/

/-- A numeric-literal parser fixture that parses exactly the string "5"
(standing in for Python float). -/
def fl5 : Str → Option ℚ := fun l => if l = "5".toList then some 5 else none

/-- C10 counterexample: with a clamp domain the parser does not return
(v, v) for the single parsed value v.  Parsing "5" with clamp [0, 1]
yields (1, 1), not (5, 5). -/
theorem c10_clamped_scalar_not_identity :
    parse_range fl5 "5".toList (some (0, 1)) = some (1, 1) ∧
    ((1 : ℚ), (1 : ℚ)) ≠ ((5 : ℚ), (5 : ℚ)) := by
  constructor
  · simp [parse_range, fl5, pyStrip, removeSpaces, pyClamp]
  · norm_num [Prod.ext_iff]

/-- C10 (amended): for every range string whose cleaned form (stripped,
spaces removed) contains neither a dash nor a comma, and whose single
value parses, range parsing returns the degenerate range (c, c) where c
is the parsed value clamped to the clamp domain when one is given (and c
is the parsed value itself when there is none). -/
theorem c10_scalar_parses_degenerate (fl : Str → Option ℚ) (s : Str)
    (clamp : Option (ℚ × ℚ)) (v : ℚ)
    (h1 : '-' ∉ removeSpaces (pyStrip s)) (h2 : ',' ∉ removeSpaces (pyStrip s))
    (h3 : fl (removeSpaces (pyStrip s)) = some v) :
    parse_range fl s clamp = some (pyClamp clamp v, pyClamp clamp v) := by
  simp [parse_range, h1, h2, h3]

/-- C10 witness: the amended theorem applied to the concrete parser
fixture with no clamp gives exactly (5, 5). -/
theorem c10_scalar_parses_degenerate_witness :
    parse_range fl5 "5".toList none = some (5, 5) :=
  c10_scalar_parses_degenerate fl5 "5".toList none 5
    (by decide) (by decide) (by decide)

/-! ## C2: what one tick observes of a concurrent reconfiguration -/

/-- A replacement configuration that differs from w0 both in a field the
loop copies under the lock (enable_a) and in fields it reads after
releasing the lock (the magnitude range, the guard). -/
def cfg1 : AppConfig :=
  { hold_seconds_range := (2, 5)
    stick_magnitude_range := (1/2, 1)
    a_interval_range := (7, 15)
    a_hold_seconds_range := (0, 0)
    rt_interval_range := (10, 25)
    rt_intensity_range := (1, 1)
    rt_hold_seconds_range := (0, 0)
    loop_sleep_seconds := 1/100
    enable_a := false
    enable_rt := true
    only_actions_while_moving := false
    allow_diagonals := false
    direction_weights := (1, 1, 1, 1)
    move_threshold := 1/10
    guard_enabled := true
    guard_mode := "whitelist".toList
    guard_processes := ["game.exe".toList]
    guard_check_ms := 150 }

/-- C2 counterexample: an iteration whose locked snapshot runs before an
apply_live_config and whose unlocked reads run after it observes a mix —
its observation equals neither the observation of the pre-reload state
nor that of the post-reload state.  The claim that each tick observes
either the entire old ParameterSet or the entire new one is false. -/
theorem c2_tick_observes_mixed_parameters :
    tickObservation w0 (w0.apply_live_config cfg1) ≠ tickObservation w0 w0 ∧
    tickObservation w0 (w0.apply_live_config cfg1) ≠
      tickObservation (w0.apply_live_config cfg1) (w0.apply_live_config cfg1) := by
  constructor
  · intro h
    have h2 := congrArg (fun o => o.late.mag_rng.1) h
    simp only [tickObservation, unlockedReads, MovementWorker.apply_live_config,
      w0, cfg1] at h2
    norm_num at h2
  · intro h
    have h2 := congrArg (fun o => o.snap.enable_a) h
    simp only [tickObservation, lockedSnapshot, MovementWorker.apply_live_config,
      w0, cfg1] at h2
    exact Bool.true_eq_false.mp h2

/-- C2 (amended): only the fields listed in the locked with-block
(terminate, run flag, tick interval, the two enable flags, the
motion-gating flag and the motion threshold) are snapshotted under the
mutual-exclusion boundary; the guard, the ranges, the direction weights
and the allow-diagonals flag are read by the same iteration after the
lock is released.  An iteration overlapping apply_live_config therefore
observes the old snapshot fields together with the new unlocked fields,
and as soon as the reload changes a field on each side of the boundary,
that mixed observation differs from the pure old observation and from the
pure new observation alike. -/
theorem c2_unlocked_reads_can_mix (w : MovementWorker) (cfg : AppConfig) :
    (tickObservation w (w.apply_live_config cfg)).snap = lockedSnapshot w ∧
    (tickObservation w (w.apply_live_config cfg)).late =
      unlockedReads (w.apply_live_config cfg) ∧
    (unlockedReads (w.apply_live_config cfg) ≠ unlockedReads w →
      tickObservation w (w.apply_live_config cfg) ≠ tickObservation w w) ∧
    (lockedSnapshot (w.apply_live_config cfg) ≠ lockedSnapshot w →
      tickObservation w (w.apply_live_config cfg) ≠
        tickObservation (w.apply_live_config cfg) (w.apply_live_config cfg)) := by
  refine ⟨rfl, rfl, ?_, ?_⟩
  · intro hlate h
    exact hlate (congrArg TickObservation.late h)
  · intro hsnap h
    exact hsnap (congrArg TickObservation.snap h).symm

/-- C2 witness: the amended theorem applied to the concrete worker and
reload configuration, with both difference hypotheses discharged. -/
theorem c2_unlocked_reads_can_mix_witness :
    tickObservation w0 (w0.apply_live_config cfg1) ≠ tickObservation w0 w0 :=
  (c2_unlocked_reads_can_mix w0 cfg1).2.2.1 (by
    intro h
    have h2 := congrArg (fun u => u.mag_rng.1) h
    simp only [unlockedReads, MovementWorker.apply_live_config, w0, cfg1] at h2
    norm_num at h2)

/-! ## C3: behaviour when the external query fails -/

/-- C3 counterexample: in whitelist mode a failed external query does not
return the previous cached result.  The freshly built whitelist guard
caches true, yet a non-cached allow_action call whose query produces no
identifier returns false. -/
theorem c3_query_failure_ignores_cache :
    guardW.enabled = true ∧ guardW.processes ≠ [] ∧
    guardW.cached_ok = true ∧
    (guardW.allow_action 1 none).ok = false := by
  refine ⟨rfl, by decide, rfl, ?_⟩
  rw [ForegroundGuard.allow_action]
  rw [if_neg (by decide), if_neg (by norm_num [guardW, ForegroundGuard.init])]
  decide

/-- C3 (amended): when a non-cached evaluation's external query fails to
produce an identifier, allow_action tests membership of the empty string
in the identifier set; since every identifier a constructed guard stores
is non-empty, the result is true in blacklist mode and false in whitelist
mode, independent of the cached boolean, and that result replaces the
cache. -/
theorem c3_query_failure_mode_polarity :
    (∀ (e : Bool) (m : Str) (ps : List Str) (cms : ℤ),
      [] ∉ (ForegroundGuard.init e m ps cms).processes) ∧
    (∀ (g : ForegroundGuard) (now : ℚ), g.enabled = true → g.processes ≠ [] →
      ¬ (now - g.last_check < g.interval) → [] ∉ g.processes →
      (g.allow_action now none).ok = decide (g.mode = "blacklist".toList) ∧
      (g.allow_action now none).state.cached_ok =
        decide (g.mode = "blacklist".toList)) := by
  constructor
  · intro e m ps cms hmem
    rw [ForegroundGuard.init] at hmem
    simp only [List.mem_map, List.mem_filter] at hmem
    obtain ⟨p, ⟨-, hne⟩, hmap⟩ := hmem
    exact (by simpa using hne : pyStrip p ≠ []) (by
      have := congrArg List.length hmap
      simpa [pyLower] using List.length_eq_zero.mp (by simpa [pyLower] using this))
  · intro g now hE hP hT hmem
    rw [ForegroundGuard.allow_action,
      if_neg (by simp [hE, hP]), if_neg hT]
    have hin : decide (pyLower (Option.getD (none : Option Str) []) ∈ g.processes)
        = false := by
      simpa [pyLower] using hmem
    constructor
    · simp only [hin]
      by_cases hm : g.mode = "blacklist".toList <;> simp [hm]
    · simp only [hin]
      by_cases hm : g.mode = "blacklist".toList <;> simp [hm]

/-- C3 witness: the amended theorem applied to the concrete whitelist
guard at a non-cached instant. -/
theorem c3_query_failure_mode_polarity_witness :
    (guardW.allow_action 1 none).ok = decide (guardW.mode = "blacklist".toList) :=
  ((c3_query_failure_mode_polarity.2 guardW 1 rfl (by decide)
    (by norm_num [guardW, ForegroundGuard.init])
    (c3_query_failure_mode_polarity.1 true "whitelist".toList
      ["game.exe".toList] 150))).1

/-! ## C5: when the action channels are armed -/

/-- Unfolding rule: an infinite due time is never due. -/
theorem isDue_none (now : ℚ) : isDue none now = false := rfl

/-- Unfolding rule: a finite due time is due once reached. -/
theorem isDue_some (t now : ℚ) : isDue (some t) now = decide (t ≤ now) := rfl

/-- A rotation tick that fires while both due times are still infinite
arms both channels from their interval ranges (provided the sampled
intervals are positive, so that neither channel fires in the same
iteration). -/
theorem tick_rotation_arms (w : MovementWorker) (L : LoopLocals) (now : ℚ)
    (r : Rand) (x y mag : ℚ)
    (hT : w.terminate = false) (hR : w.running = true)
    (hH : L.hold_until ≤ now)
    (hpick : pick_direction w r.choice r.mag = some (x, y, mag))
    (ha : L.next_a = none) (hrt : L.next_rt = none)
    (hpa : 0 < uniform w.a_int_rng.1 w.a_int_rng.2 r.a_int_arm)
    (hprt : 0 < uniform w.rt_int_rng.1 w.rt_int_rng.2 r.rt_int_arm) :
    tick w L now true r = some ({ w with current_mag := mag },
      { hold_until := now + uniform w.hold_rng.1 w.hold_rng.2 r.hold
        next_a := some (now + uniform w.a_int_rng.1 w.a_int_rng.2 r.a_int_arm)
        next_rt := some (now + uniform w.rt_int_rng.1 w.rt_int_rng.2 r.rt_int_arm) }) := by
  have hnotA : ¬ (now + uniform w.a_int_rng.1 w.a_int_rng.2 r.a_int_arm ≤ now) := by
    linarith
  have hnotRT : ¬ (now + uniform w.rt_int_rng.1 w.rt_int_rng.2 r.rt_int_arm ≤ now) := by
    linarith
  simp [tick, hT, hR, hH, hpick, ha, hrt, isDue_some, hnotA, hnotRT]

/-- A rotation tick that fires while the A channel holds a finite,
not-yet-due timestamp leaves that timestamp untouched. -/
theorem tick_rotation_keeps_next_a (w : MovementWorker) (L : LoopLocals)
    (now : ℚ) (r : Rand) (x y mag ta : ℚ)
    (hT : w.terminate = false) (hR : w.running = true)
    (hH : L.hold_until ≤ now)
    (hpick : pick_direction w r.choice r.mag = some (x, y, mag))
    (ha : L.next_a = some ta) (hnd : ¬ (ta ≤ now)) :
    (tick w L now true r).map (fun p => p.2.next_a) = some (some ta) := by
  simp [tick, hT, hR, hH, hpick, ha, isDue_some, hnd,
    apply_ite (fun L : LoopLocals => L.next_a)]

/-- The concrete worker with the schedule running. -/
def wRun : MovementWorker := { w0 with running := true }

/-- wRun after its first rotation has sampled magnitude 1. -/
def wArmed : MovementWorker := { wRun with current_mag := 1 }

/-- The loop locals after the first rotation of wRun at time 0: both
channels armed 50 seconds out (a_int_rng = rt_int_rng = (50, 50)). -/
def LArmed : LoopLocals := ⟨0, some 50, some 50⟩

/-- With uniform weights (1, 1, 1, 1), no diagonals and the zero draw,
the weighted choice picks index 0. -/
theorem choicesIdx_w0like (w : MovementWorker) (h1 : w.dir_w = (1, 1, 1, 1))
    (h2 : w.allow_diagonals = false) : choicesIdx (weightsOf w) 0 = some 0 := by
  norm_num [choicesIdx, weightsOf, cumsum, bisect_right, h1, h2]

/-- With uniform weights, no diagonals, a degenerate unit magnitude range
and zero draws, _pick_direction returns the up direction at magnitude 1. -/
theorem pick_w0like (w : MovementWorker) (h1 : w.dir_w = (1, 1, 1, 1))
    (h2 : w.allow_diagonals = false) (h3 : w.mag_rng = (1, 1)) :
    pick_direction w 0 0 = some (0, 1, 1) := by
  rw [pick_direction, choicesIdx_w0like w h1 h2]
  simp [dirsOf, cardinals, uniform, h2, h3]

/-- C5 counterexample: the first stick rotation after RE-entering Running
does not re-sample the channels' due times.  A run at time 0 arms both
channels at 50; the schedule is then paused and resumed, and the first
rotation after the resume (at time 10) leaves next_a at 50 — it is not
re-sampled from the interval range, which would have produced 60. -/
theorem c5_no_rearm_on_reentry :
    tick wRun (LoopLocals.init 0) 0 true r0 = some (wArmed, LArmed) ∧
    tick wArmed.toggle LArmed 5 true r0 = some (wArmed.toggle, LArmed) ∧
    wArmed.toggle.toggle.running = true ∧
    (tick wArmed.toggle.toggle LArmed 10 true r0).map (fun p => p.2.next_a) =
      some (some 50) ∧
    (10 : ℚ) + uniform wArmed.a_int_rng.1 wArmed.a_int_rng.2 r0.a_int_arm ≠ 50 := by
  refine ⟨?_, ?_, rfl, ?_, ?_⟩
  · rw [tick_rotation_arms wRun (LoopLocals.init 0) 0 r0 0 1 1 rfl rfl
      (le_refl 0) (pick_w0like wRun rfl rfl rfl) rfl rfl
      (by norm_num [uniform, wRun, w0, r0]) (by norm_num [uniform, wRun, w0, r0])]
    simp [wArmed, LArmed, wRun, w0, uniform, r0, LoopLocals.init]
  · simp [tick, MovementWorker.toggle, wArmed, wRun, w0, LArmed]
  · have h50 : LArmed.next_a = some 50 := rfl
    rw [tick_rotation_keeps_next_a wArmed.toggle.toggle LArmed 10 r0 0 1 1 50
      rfl rfl (by norm_num [LArmed]) (pick_w0like wArmed.toggle.toggle rfl rfl rfl)
      h50 (by norm_num)]
  · norm_num [uniform, wArmed, wRun, w0, r0]

/-- C5 (amended): a channel's due time is infinite (none) until the
first stick rotation of the whole loop run; at a rotation, a due time is
sampled from the channel's interval range precisely when it is still
infinite — an already-finite due time is left untouched by the rotation
(in particular by the first rotation after re-entering Running) and only
changes when that channel itself fires. -/
theorem c5_arming_only_when_infinite :
    (∀ t : ℚ, (LoopLocals.init t).next_a = none ∧ (LoopLocals.init t).next_rt = none) ∧
    (∀ (w : MovementWorker) (L : LoopLocals) (now : ℚ) (r : Rand) (x y mag : ℚ),
      w.terminate = false → w.running = true → L.hold_until ≤ now →
      pick_direction w r.choice r.mag = some (x, y, mag) →
      ((L.next_a = none → L.next_rt = none →
        0 < uniform w.a_int_rng.1 w.a_int_rng.2 r.a_int_arm →
        0 < uniform w.rt_int_rng.1 w.rt_int_rng.2 r.rt_int_arm →
        tick w L now true r = some ({ w with current_mag := mag },
          { hold_until := now + uniform w.hold_rng.1 w.hold_rng.2 r.hold
            next_a := some (now + uniform w.a_int_rng.1 w.a_int_rng.2 r.a_int_arm)
            next_rt := some (now + uniform w.rt_int_rng.1 w.rt_int_rng.2 r.rt_int_arm) })) ∧
      (∀ ta : ℚ, L.next_a = some ta → ¬ (ta ≤ now) →
        (tick w L now true r).map (fun p => p.2.next_a) = some (some ta)))) :=
  ⟨fun _ => ⟨rfl, rfl⟩,
   fun w L now r x y mag hT hR hH hpick =>
     ⟨fun ha hrt hpa hprt =>
        tick_rotation_arms w L now r x y mag hT hR hH hpick ha hrt hpa hprt,
      fun ta ha hnd =>
        tick_rotation_keeps_next_a w L now r x y mag ta hT hR hH hpick ha hnd⟩⟩

/-- C5 witness: the amended theorem applied to the concrete running
worker at time 0 with all draws at the low endpoints of their ranges:
the first rotation arms both channels from their interval ranges. -/
theorem c5_arming_only_when_infinite_witness :
    tick wRun (LoopLocals.init 0) 0 true r0 = some ({ wRun with current_mag := 1 },
      { hold_until := (0 : ℚ) + uniform wRun.hold_rng.1 wRun.hold_rng.2 r0.hold
        next_a := some ((0 : ℚ) + uniform wRun.a_int_rng.1 wRun.a_int_rng.2 r0.a_int_arm)
        next_rt := some ((0 : ℚ) + uniform wRun.rt_int_rng.1 wRun.rt_int_rng.2 r0.rt_int_arm) }) :=
  (c5_arming_only_when_infinite.2 wRun (LoopLocals.init 0) 0 r0 0 1 1 rfl rfl
    (le_refl 0) (pick_w0like wRun rfl rfl rfl)).1 rfl rfl
    (by norm_num [uniform, wRun, w0, r0]) (by norm_num [uniform, wRun, w0, r0])

/-! ## C6: query rate limiting and the cache -/

/-- allow_action never changes the configured interval. -/
theorem allow_action_interval (g : ForegroundGuard) (t : ℚ) (q : Option Str) :
    (g.allow_action t q).state.interval = g.interval := by
  rw [ForegroundGuard.allow_action]
  split
  · rfl
  · split <;> rfl

/-- A call that issues no external query leaves the guard unchanged. -/
theorem allow_action_not_queried (g : ForegroundGuard) (t : ℚ) (q : Option Str)
    (h : (g.allow_action t q).queried = false) : (g.allow_action t q).state = g := by
  rw [ForegroundGuard.allow_action] at h ⊢
  by_cases h1 : g.enabled = false ∨ g.processes = []
  · rw [if_pos h1]
  · rw [if_neg h1] at h ⊢
    by_cases h2 : t - g.last_check < g.interval
    · rw [if_pos h2]
    · rw [if_neg h2] at h
      exact absurd h (by simp)

/-- A call that issues an external query happens at least one interval
after the stored last-check time and stamps that time. -/
theorem allow_action_queried (g : ForegroundGuard) (t : ℚ) (q : Option Str)
    (h : (g.allow_action t q).queried = true) :
    g.interval ≤ t - g.last_check ∧ (g.allow_action t q).state.last_check = t := by
  rw [ForegroundGuard.allow_action] at h ⊢
  by_cases h1 : g.enabled = false ∨ g.processes = []
  · rw [if_pos h1] at h
    exact absurd h (by simp)
  · rw [if_neg h1] at h ⊢
    by_cases h2 : t - g.last_check < g.interval
    · rw [if_pos h2] at h
      exact absurd h (by simp)
    · rw [if_neg h2]
      exact ⟨le_of_not_lt fun hc => h2 hc, rfl⟩

/-- Consecutive externally-queried times of any call sequence are at
least one interval apart (anchored at the stored last-check time). -/
theorem queriedTimes_chain (calls : List (ℚ × Option Str)) :
    ∀ g : ForegroundGuard,
      List.Chain (fun a b => g.interval ≤ b - a) g.last_check
        (queriedTimes g calls) := by
  induction calls with
  | nil => intro g; exact List.Chain.nil
  | cons c rest ih =>
    intro g
    obtain ⟨t, q⟩ := c
    rw [queriedTimes]
    by_cases hq : (g.allow_action t q).queried = true
    · rw [if_pos hq]
      obtain ⟨hgap, hstamp⟩ := allow_action_queried g t q hq
      refine List.Chain.cons hgap ?_
      have := ih (g.allow_action t q).state
      rwa [hstamp, allow_action_interval] at this
    · rw [if_neg hq]
      rw [allow_action_not_queried g t q (Bool.not_eq_true _ ▸ hq)]
      exact ih g

/-- C6: the check interval of every constructed guard is floored at 50 ms
(1/20 second) whatever check_ms was configured; a call made less than one
interval after the stored last-check time returns the cached boolean
verbatim, leaves the guard unchanged and issues no external query; and in
any sequence of calls the externally-queried call times are spaced at
least one interval apart, so at most one query is issued per interval. -/
theorem c6_query_rate_limited :
    (∀ (e : Bool) (m : Str) (ps : List Str) (cms : ℤ),
      (ForegroundGuard.init e m ps cms).interval =
        ((max 50 cms : ℤ) : ℚ) / 1000 ∧
      (1 : ℚ)/20 ≤ (ForegroundGuard.init e m ps cms).interval) ∧
    (∀ (g : ForegroundGuard) (now : ℚ) (q : Option Str),
      g.enabled = true → g.processes ≠ [] → now - g.last_check < g.interval →
      g.allow_action now q = ⟨g.cached_ok, g, false⟩) ∧
    (∀ (g : ForegroundGuard) (calls : List (ℚ × Option Str)),
      List.Chain (fun a b => g.interval ≤ b - a) g.last_check
        (queriedTimes g calls)) := by
  refine ⟨?_, ?_, fun g calls => queriedTimes_chain calls g⟩
  · intro e m ps cms
    constructor
    · rfl
    · rw [ForegroundGuard.init]
      have h1 : (50 : ℤ) ≤ max 50 cms := le_max_left 50 cms
      have h2 : ((50 : ℤ) : ℚ) ≤ ((max 50 cms : ℤ) : ℚ) := by exact_mod_cast h1
      have : ((50 : ℤ) : ℚ) / 1000 ≤ ((max 50 cms : ℤ) : ℚ) / 1000 :=
        (div_le_div_iff_of_pos_right (by norm_num)).2 h2
      calc (1 : ℚ)/20 = ((50 : ℤ) : ℚ) / 1000 := by norm_num
        _ ≤ _ := this
  · intro g now q hE hP hLt
    rw [ForegroundGuard.allow_action, if_neg (by simp [hE, hP]), if_pos hLt]

/-- C6 witness: the constructed blacklist guard has interval 3/20 of a
second, and a call 1/100 of a second after construction returns the
cached true verbatim without querying. -/
theorem c6_query_rate_limited_witness :
    guard0.interval = ((max 50 150 : ℤ) : ℚ) / 1000 ∧
    guard0.allow_action (1/100) (some "game.exe".toList) =
      ⟨guard0.cached_ok, guard0, false⟩ :=
  ⟨(c6_query_rate_limited.1 true "blacklist".toList ["game.exe".toList] 150).1,
   c6_query_rate_limited.2.1 guard0 (1/100) (some "game.exe".toList) rfl
     (by decide) (by norm_num [guard0, ForegroundGuard.init])⟩

/-! ## C7: membership polarity of a successful non-cached evaluation -/

/-- C7: on a non-cached evaluation of an enabled guard with a non-empty
identifier set whose external query returns an identifier, the returned
boolean is the negation of lower-cased membership in blacklist mode and
lower-cased membership itself in whitelist (non-blacklist) mode, and the
external query is indeed issued. -/
theorem c7_membership_polarity (g : ForegroundGuard) (now : ℚ) (name : Str)
    (hE : g.enabled = true) (hP : g.processes ≠ [])
    (hT : ¬ (now - g.last_check < g.interval)) :
    ((g.allow_action now (some name)).ok = true ↔
      (if g.mode = "blacklist".toList
        then pyLower name ∉ g.processes
        else pyLower name ∈ g.processes)) ∧
    (g.allow_action now (some name)).queried = true := by
  rw [ForegroundGuard.allow_action, if_neg (by simp [hE, hP]), if_neg hT]
  refine ⟨?_, rfl⟩
  by_cases hm : g.mode = "blacklist".toList <;> simp [hm]

/-- C7 witness: the spec examples.  Blacklist mode with {"game.exe"}
denies on "game.exe" and permits on "other.exe"; whitelist mode inverts
both answers. -/
theorem c7_membership_polarity_witness :
    (guard0.allow_action 1 (some "game.exe".toList)).ok = false ∧
    (guard0.allow_action 1 (some "other.exe".toList)).ok = true ∧
    (guardW.allow_action 1 (some "game.exe".toList)).ok = true ∧
    (guardW.allow_action 1 (some "other.exe".toList)).ok = false := by
  have hT0 : ¬ ((1 : ℚ) - guard0.last_check < guard0.interval) := by
    norm_num [guard0, ForegroundGuard.init]
  have hTW : ¬ ((1 : ℚ) - guardW.last_check < guardW.interval) := by
    norm_num [guardW, ForegroundGuard.init]
  have h1 := (c7_membership_polarity guard0 1 "game.exe".toList rfl (by decide) hT0).1
  have h2 := (c7_membership_polarity guard0 1 "other.exe".toList rfl (by decide) hT0).1
  have h3 := (c7_membership_polarity guardW 1 "game.exe".toList rfl (by decide) hTW).1
  have h4 := (c7_membership_polarity guardW 1 "other.exe".toList rfl (by decide) hTW).1
  refine ⟨?_, ?_, ?_, ?_⟩
  · rw [Bool.eq_false_iff]
    intro hc
    have := h1.mp hc
    revert this
    decide
  · exact h2.mpr (by decide)
  · exact h3.mpr (by decide)
  · rw [Bool.eq_false_iff]
    intro hc
    have := h4.mp hc
    revert this
    decide

/-! ## C8: what the weighted choice can select -/

/-- Shifting every entry of the list shifts the bisection threshold. -/
theorem bisect_right_map_add (x : ℚ) (l : List ℚ) (pos : ℚ) :
    bisect_right (l.map (x + ·)) pos = bisect_right l (pos - x) := by
  induction l with
  | nil => rfl
  | cons c cs ih =>
    rw [List.map_cons, bisect_right, bisect_right]
    have hiff : pos < x + c ↔ pos - x < c := by constructor <;> intro <;> linarith
    by_cases h : pos - x < c
    · rw [if_pos (hiff.mpr h), if_pos h]
    · rw [if_neg (fun hc => h (hiff.mp hc)), if_neg h, ih]

/-- Bisecting the running totals at a position inside [0, total) always
lands on an index with a strictly positive weight. -/
theorem bisect_cumsum_pos (ws : List ℚ) (pos : ℚ) (h0 : 0 ≤ pos)
    (hlt : pos < ws.sum) :
    bisect_right (cumsum ws) pos < ws.length ∧
    0 < ws.getD (bisect_right (cumsum ws) pos) 0 := by
  induction ws generalizing pos with
  | nil =>
    exact absurd (lt_of_le_of_lt h0 hlt) (by simp)
  | cons x xs ih =>
    rw [cumsum, bisect_right]
    by_cases h : pos < x
    · rw [if_pos h]
      exact ⟨Nat.succ_pos _, lt_of_le_of_lt h0 h⟩
    · rw [if_neg h, bisect_right_map_add]
      have hx : x ≤ pos := le_of_not_lt h
      have hsum : pos - x < xs.sum := by
        rw [List.sum_cons] at hlt; linarith
      obtain ⟨hlen, hpos⟩ := ih (pos - x) (by linarith) hsum
      constructor
      · simpa [List.length_cons, Nat.succ_lt_succ_iff] using hlen
      · simpa [List.getD_cons_succ] using hpos

/-- A worker with zero cardinal weights and diagonals disabled (the
all-candidate-weights-zero case of the claim). -/
def wZero : MovementWorker := { w0 with dir_w := (0, 0, 0, 0) }

/-- C8 counterexample: with allow_diagonals false and all four weights
zero, the direction picker does not fall back to a uniform choice — the
weighted choice fails (random.choices raises ValueError, modelled as
none), so no candidate is returned. -/
theorem c8_all_zero_weights_fail :
    wZero.allow_diagonals = false ∧ wZero.dir_w = (0, 0, 0, 0) ∧
    pick_direction wZero (1/2) (1/2) = none := by
  refine ⟨rfl, rfl, ?_⟩
  simp [pick_direction, choicesIdx, weightsOf, wZero, w0]

/-- C8 (amended): whenever the total weight is positive, the weighted
choice returns an index of strictly positive weight for every draw in
[0, 1) — zero-weight candidates are never selected; when allow_diagonals
is set and all four cardinal weights are zero, the built weight list is
[0, 0, 0, 0, 1, 1, 1, 1], so the choice is a uniform one over the four
diagonal candidates (indices 4..7, each of weight 1); but when
allow_diagonals is false and all weights are zero, _pick_direction fails
(none) instead of falling back to a uniform choice. -/
theorem c8_zero_weight_never_selected :
    (∀ (ws : List ℚ) (rr : ℚ) (i : ℕ), 0 ≤ rr → rr < 1 → 0 < ws.sum →
      choicesIdx ws rr = some i → i < ws.length ∧ 0 < ws.getD i 0) ∧
    (∀ w : MovementWorker, w.allow_diagonals = true → w.dir_w = (0, 0, 0, 0) →
      weightsOf w = [0, 0, 0, 0, 1, 1, 1, 1] ∧
      (∀ (rr : ℚ) (i : ℕ), 0 ≤ rr → rr < 1 →
        choicesIdx (weightsOf w) rr = some i → 4 ≤ i ∧ i < 8)) ∧
    (∀ (w : MovementWorker) (rc rm : ℚ), w.allow_diagonals = false →
      w.dir_w = (0, 0, 0, 0) → pick_direction w rc rm = none) := by
  have key : ∀ (ws : List ℚ) (rr : ℚ) (i : ℕ), 0 ≤ rr → rr < 1 → 0 < ws.sum →
      choicesIdx ws rr = some i → i < ws.length ∧ 0 < ws.getD i 0 := by
    intro ws rr i h0 h1 hsum hc
    rw [choicesIdx] at hc
    rw [if_neg (not_le.mpr hsum)] at hc
    have hpos0 : 0 ≤ rr * ws.sum := mul_nonneg h0 (le_of_lt hsum)
    have hposlt : rr * ws.sum < ws.sum := by
      calc rr * ws.sum < 1 * ws.sum := by
            exact mul_lt_mul_of_pos_right h1 hsum
        _ = ws.sum := one_mul _
    obtain ⟨hlen, hwpos⟩ := bisect_cumsum_pos ws (rr * ws.sum) hpos0 hposlt
    have hmin : min (bisect_right (cumsum ws) (rr * ws.sum)) (ws.length - 1) =
        bisect_right (cumsum ws) (rr * ws.sum) :=
      min_eq_left (Nat.le_sub_one_of_lt hlen)
    rw [hmin] at hc
    obtain rfl : bisect_right (cumsum ws) (rr * ws.sum) = i := by
      exact Option.some.inj hc
    exact ⟨hlen, hwpos⟩
  refine ⟨key, ?_, ?_⟩
  · intro w hd hw
    have hws : weightsOf w = [0, 0, 0, 0, 1, 1, 1, 1] := by
      rw [weightsOf, hw]
      norm_num [hd]
    refine ⟨hws, ?_⟩
    intro rr i h0 h1 hc
    rw [hws] at hc
    have hsum : (0 : ℚ) < [(0 : ℚ), 0, 0, 0, 1, 1, 1, 1].sum := by norm_num
    obtain ⟨hlen, hwpos⟩ := key [0, 0, 0, 0, 1, 1, 1, 1] rr i h0 h1 hsum hc
    have hlen8 : i < 8 := by simpa using hlen
    refine ⟨?_, hlen8⟩
    by_contra hlt
    push_neg at hlt
    interval_cases i <;> norm_num at hwpos
  · intro w rc rm hd hw
    simp [pick_direction, choicesIdx, weightsOf, hw, hd]

/-- C8 witness: the amended theorem at concrete inputs — with weights
[1, 1, 1, 1] and draw 1/2 the selected index 2 has positive weight, and
with diagonals on and zero cardinal weights, draw 1/2 selects index 6, a
diagonal. -/
theorem c8_zero_weight_never_selected_witness :
    ((2 : ℕ) < ([(1 : ℚ), 1, 1, 1]).length ∧
      (0 : ℚ) < ([(1 : ℚ), 1, 1, 1]).getD 2 0) ∧
    ((4 : ℕ) ≤ 6 ∧ (6 : ℕ) < 8) := by
  constructor
  · exact c8_zero_weight_never_selected.1 [1, 1, 1, 1] (1/2) 2 (by norm_num)
      (by norm_num) (by norm_num)
      (by norm_num [choicesIdx, cumsum, bisect_right])
  · exact (c8_zero_weight_never_selected.2.1
      { w0 with allow_diagonals := true, dir_w := (0, 0, 0, 0) } rfl rfl).2
      (1/2) 6 (by norm_num) (by norm_num)
      (by norm_num [choicesIdx, weightsOf, cumsum, bisect_right, w0])

/-! ## C9: degenerate magnitude range and vector norm -/

/-- The getD of an in-range index is a member of the list. -/
theorem getD_mem_of_lt {α : Type} (l : List α) (i : ℕ) (d : α)
    (h : i < l.length) : l.getD i d ∈ l := by
  induction l generalizing i with
  | nil => exact absurd h (by simp)
  | cons a t ih =>
    cases i with
    | zero => simp
    | succ n =>
      rw [List.getD_cons_succ]
      exact List.mem_cons_of_mem a (ih n (by simpa using h))

/-- The weight list and the candidate list always have the same length. -/
theorem weightsOf_length (w : MovementWorker) :
    (weightsOf w).length = (dirsOf w).length := by
  rw [weightsOf, dirsOf]
  by_cases h : w.allow_diagonals = true <;> simp [h, cardinals, diagonals]

/-- The candidate list is never empty. -/
theorem dirsOf_length_pos (w : MovementWorker) : 0 < (dirsOf w).length := by
  rw [dirsOf]
  by_cases h : w.allow_diagonals = true <;> simp [h, cardinals, diagonals]

/-- Every candidate list is drawn from the eight prepared directions. -/
theorem dirsOf_subset (w : MovementWorker) :
    ∀ b ∈ dirsOf w, b ∈ cardinals ++ diagonals := by
  intro b hb
  rw [dirsOf] at hb
  by_cases h : w.allow_diagonals = true
  · rwa [if_pos h] at hb
  · rw [if_neg h] at hb
    exact List.mem_append_left _ hb

/-- Each prepared direction is within 1/1000 of unit squared norm (the
cardinals are exactly unit; the 0.707-diagonals are 302/1000000 short). -/
theorem prepared_norm_close (b : ℚ × ℚ) (hb : b ∈ cardinals ++ diagonals) :
    |b.1 ^ 2 + b.2 ^ 2 - 1| ≤ 1/1000 := by
  simp only [cardinals, diagonals, List.mem_append, List.mem_cons,
    List.mem_singleton, List.not_mem_nil, or_false] at hb
  rcases hb with (rfl | rfl | rfl | rfl) | (rfl | rfl | rfl | rfl) <;>
    (rw [abs_le]; constructor <;> norm_num)

/-- C9: if the magnitude range is the degenerate (m, m), every successful
pick returns magnitude exactly m, and the squared norm of the returned
vector is within one part in a thousand of m squared, for every
selectable direction including the diagonals. -/
theorem c9_degenerate_magnitude (w : MovementWorker) (rc rm m dx dy mag : ℚ)
    (hm : w.mag_rng = (m, m))
    (hp : pick_direction w rc rm = some (dx, dy, mag)) :
    mag = m ∧ |dx ^ 2 + dy ^ 2 - m ^ 2| ≤ m ^ 2 / 1000 := by
  rw [pick_direction] at hp
  cases hc : choicesIdx (weightsOf w) rc with
  | none => rw [hc] at hp; exact absurd hp (by simp)
  | some idx =>
    rw [hc] at hp
    rw [Option.map_some'] at hp
    rw [choicesIdx] at hc
    by_cases hs : (weightsOf w).sum ≤ 0
    · rw [if_pos hs] at hc; cases hc
    · rw [if_neg hs] at hc
      have hidx : idx < (dirsOf w).length := by
        have h1 : idx ≤ (weightsOf w).length - 1 := by
          have h0 := Option.some.inj hc
          rw [← h0]
          exact min_le_right _ _
        rw [weightsOf_length] at h1
        have h2 : (dirsOf w).length - 1 < (dirsOf w).length :=
          Nat.sub_lt (dirsOf_length_pos w) Nat.one_pos
        exact lt_of_le_of_lt h1 h2
      have hmag : uniform w.mag_rng.1 w.mag_rng.2 rm = m := by
        rw [hm, uniform]; ring
      rw [hmag] at hp
      have hbmem : (dirsOf w).getD idx (0, 0) ∈ dirsOf w :=
        getD_mem_of_lt (dirsOf w) idx (0, 0) hidx
      have hnorm := prepared_norm_close _ (dirsOf_subset w _ hbmem)
      obtain ⟨h1, h2, h3⟩ : ((dirsOf w).getD idx (0, 0)).1 * m = dx ∧
          ((dirsOf w).getD idx (0, 0)).2 * m = dy ∧ m = mag := by
        have := Option.some.inj hp
        exact ⟨congrArg (fun t => t.1) this, congrArg (fun t => t.2.1) this,
          congrArg (fun t => t.2.2) this⟩
      refine ⟨h3.symm, ?_⟩
      have hdiff : dx ^ 2 + dy ^ 2 - m ^ 2 =
          (((dirsOf w).getD idx (0, 0)).1 ^ 2 +
            ((dirsOf w).getD idx (0, 0)).2 ^ 2 - 1) * m ^ 2 := by
        rw [← h1, ← h2]; ring
      rw [hdiff, abs_mul, abs_of_nonneg (sq_nonneg m)]
      calc |((dirsOf w).getD idx (0, 0)).1 ^ 2 +
            ((dirsOf w).getD idx (0, 0)).2 ^ 2 - 1| * m ^ 2
          ≤ (1/1000) * m ^ 2 :=
            mul_le_mul_of_nonneg_right hnorm (sq_nonneg m)
        _ = m ^ 2 / 1000 := by ring

/-- The concrete worker for the diagonal witness: degenerate magnitude
range (1/2, 1/2) with diagonals enabled. -/
def w9 : MovementWorker := { w0 with mag_rng := (1/2, 1/2), allow_diagonals := true }

/-- C9 witness: the theorem applied to a pick that selects a diagonal at
the degenerate magnitude 1/2. -/
theorem c9_degenerate_magnitude_witness :
    (1/2 : ℚ) = 1/2 ∧
    |(707/2000 : ℚ) ^ 2 + (-(707/2000) : ℚ) ^ 2 - (1/2 : ℚ) ^ 2| ≤
      (1/2 : ℚ) ^ 2 / 1000 :=
  c9_degenerate_magnitude w9 (5/8) 0 (1/2) (707/2000) (-(707/2000)) (1/2) rfl
    (by norm_num [pick_direction, choicesIdx, weightsOf, dirsOf, cumsum,
      bisect_right, cardinals, diagonals, uniform, w9, w0])
